import Mathlib

/-!
Shallow embedding of the `simple_modbus` Modbus-RTU master library
(`src/lib.rs`): CRC engine, frame builder, reply validator, reply
extractor, value codec and transfer engine, with proofs of the
properties the specification states about them.

Bytes are modelled as `Nat` values below 256, 16-bit words as `Nat`
values below 65536; `u8`/`u16` casts from the source carry an explicit
`% 256` / `% 65536`.
-/

namespace SimpleModbus

/-- One shift step of the Modbus CRC-16 inner loop (`src/lib.rs` lines
246-252): remember whether bit 0 is set, shift right, and XOR with the
polynomial 0xA001 when the shifted-out bit was 1. -/
def crcRound (crc : Nat) : Nat :=
  let crc_odd := (crc &&& 0x0001) ≠ 0
  let crc := crc >>> 1
  if crc_odd then crc ^^^ 0xA001 else crc

/-- Per-byte step of `calc_crc`: XOR the byte into the register, then run
eight shift rounds. -/
def crcByte (crc x : Nat) : Nat :=
  (crcRound ∘ crcRound ∘ crcRound ∘ crcRound ∘ crcRound ∘ crcRound ∘ crcRound ∘ crcRound)
    (crc ^^^ x)

/-- The CRC register after processing all bytes, before the final byte
swap: the fold of `crcByte` from the initial register 0xFFFF. -/
def crcRaw (data : List Nat) : Nat :=
  data.foldl crcByte 0xFFFF

/-- `calc_crc` (`src/lib.rs` lines 242-255): the raw CRC register with its
two bytes swapped, `crc << 8 | crc >> 8` in wrapping `u16` arithmetic. -/
def calc_crc (data : List Nat) : Nat :=
  let crc := crcRaw data
  ((crc <<< 8) % 65536) ||| (crc >>> 8)

/-- The errors the library reports through `anyhow`, one constructor per
distinct failure site in `src/lib.rs`. -/
inductive ModbusError
  /-- "无效的数据: 发送的数据为空" — empty request frame (`build_buffer`). -/
  | emptyFrame
  /-- "无效的数据: 发送的数据长度太大" — request longer than 260 bytes
  (`build_buffer`). -/
  | oversizedFrame
  /-- "数据异常" — request or reply shorter than 3 bytes (`validate_reply`). -/
  | frameTooShort
  /-- "数据异常, 响应ID与请求ID不一致" — unit id mismatch (`validate_reply`). -/
  | idMismatch
  /-- "数据异常, 响应功能码与请求功能码不一致" — function code mismatch
  (`validate_reply`). -/
  | funMismatch
  /-- "数据异常, 响应数据CRC错误" — CRC mismatch (`validate_reply`). -/
  | crcMismatch
  /-- "数据异常, 没有取到有效的数据" — malformed reply envelope
  (`get_reply_data`). -/
  | badReplyData
  /-- "无效的数据, 字节数据非偶数" — odd byte count (`pack_bytes`). -/
  | oddByteCount
  /-- "write_all 传输异常" — transport write failure (`transfer`). -/
  | writeFailed
  /-- "传输异常" — transport flush failure (`transfer`). -/
  | flushFailed
  /-- "read 传输异常" — transport read failure (`transfer`). -/
  | readFailed
  deriving DecidableEq, Repr

/-- The `Function` enum of `src/lib.rs` (lines 23-39): the operation
submitted to the engine.  `u8`/`u16`/word fields are `Nat`s kept in range
by the well-formedness predicate below. -/
inductive Function
  | readHoldingRegisters (id addr quantity : Nat)
  | writeSingleRegister (id addr data : Nat)
  | writeMultipleRegisters (id addr : Nat) (data : List Nat)
  | custom (req res : List Nat)
  deriving DecidableEq, Repr

/-- Range constraints imposed by the Rust field types (`u8` id, `u16`
address / quantity / words, `u8` bytes of a custom frame). -/
def Function.wf : Function → Prop
  | .readHoldingRegisters id addr quantity => id < 256 ∧ addr < 65536 ∧ quantity < 65536
  | .writeSingleRegister id addr data => id < 256 ∧ addr < 65536 ∧ data < 65536
  | .writeMultipleRegisters id addr data =>
      id < 256 ∧ addr < 65536 ∧ ∀ d ∈ data, d < 65536
  | .custom req res => (∀ b ∈ req, b < 256) ∧ ∀ b ∈ res, b < 256

instance : DecidablePred Function.wf := by
  intro f
  cases f <;> simp only [Function.wf] <;> infer_instance

instance {ε σ : Type} [DecidableEq ε] [DecidableEq σ] : DecidableEq (Except ε σ)
  | .ok a, .ok b =>
      if h : a = b then .isTrue (by rw [h])
      else .isFalse (by intro hh; cases hh; exact h rfl)
  | .ok _, .error _ => .isFalse (by intro h; cases h)
  | .error _, .ok _ => .isFalse (by intro h; cases h)
  | .error a, .error b =>
      if h : a = b then .isTrue (by rw [h])
      else .isFalse (by intro hh; cases hh; exact h rfl)

/-- `true` on the three standard (non-custom) operations. -/
def Function.nonCustom : Function → Bool
  | .custom _ _ => false
  | _ => true

/-- `true` on the write-class operations, those submitted through
`Client::write` (`src/lib.rs` lines 68-79). -/
def Function.isWrite : Function → Bool
  | .writeSingleRegister _ _ _ => true
  | .writeMultipleRegisters _ _ _ => true
  | _ => false

/-- `BufMut::put_u16`: a 16-bit value as two bytes, big-endian. -/
def u16be (x : Nat) : List Nat :=
  [x / 256 % 256, x % 256]

/-- The pre-CRC body of a `WriteSingleRegister` request: id, function
code 0x06, big-endian address, big-endian value. -/
def wsrBody (id addr data : Nat) : List Nat :=
  id :: 0x06 :: (u16be addr ++ u16be data)

/-- The pre-CRC body of a `WriteMultipleRegisters` request: id, function
code 0x10, big-endian address, the word count as a wrapping `u16`, the
byte count `2 * word_cnt as u8` in wrapping `u8` arithmetic, then the
big-endian data words. -/
def wmrBody (id addr : Nat) (data : List Nat) : List Nat :=
  let word_cnt := data.length % 65536
  let byte_cnt := 2 * (word_cnt % 256) % 256
  id :: 0x10 :: (u16be addr ++ u16be word_cnt ++ byte_cnt :: (data.map u16be).flatten)

/-- The pre-CRC body of a `ReadHoldingRegisters` request: id, function
code 0x03, big-endian address, big-endian quantity. -/
def rhrBody (id addr quantity : Nat) : List Nat :=
  id :: 0x03 :: (u16be addr ++ u16be quantity)

/-- The checks shared by all `build_buffer` arms (`src/lib.rs` lines
230-238): reject an empty or oversized request, else hand back both
buffers. -/
def buffer_checks (req reply : List Nat) : Except ModbusError (List Nat × List Nat) :=
  if req = [] then .error .emptyFrame
  else if req.length > 260 then .error .oversizedFrame
  else .ok (req, reply)

/-- `Client::build_buffer` (`src/lib.rs` lines 167-239): encode the
request frame (pre-CRC body, then `calc_crc` of it appended big-endian)
and the zero-filled expected-reply buffer, then apply the shared
checks. -/
def build_buffer : Function → Except ModbusError (List Nat × List Nat)
  | .writeSingleRegister id addr data =>
      buffer_checks (wsrBody id addr data ++ u16be (calc_crc (wsrBody id addr data)))
        (List.replicate 8 0)
  | .writeMultipleRegisters id addr data =>
      buffer_checks (wmrBody id addr data ++ u16be (calc_crc (wmrBody id addr data)))
        (List.replicate 8 0)
  | .readHoldingRegisters id addr quantity =>
      buffer_checks (rhrBody id addr quantity ++ u16be (calc_crc (rhrBody id addr quantity)))
        (List.replicate (5 + quantity * 2) 0)
  | .custom req res => buffer_checks req res

/-- `Client::validate_reply` (`src/lib.rs` lines 104-130): length guard,
unit-id echo, function-code echo, then the trailing two reply bytes read
big-endian against `calc_crc` of the rest. -/
def validate_reply (req reply : List Nat) : Except ModbusError Unit :=
  let req_len := req.length
  let reply_len := reply.length
  if req_len < 3 ∨ reply_len < 3 then .error .frameTooShort
  else if req.getD 0 0 ≠ reply.getD 0 0 then .error .idMismatch
  else if req.getD 1 0 ≠ reply.getD 1 0 then .error .funMismatch
  else
    let crc := (reply.getD (reply_len - 2) 0) * 256 + reply.getD (reply_len - 1) 0
    let data := reply.take (reply_len - 2)
    if crc ≠ calc_crc data then .error .crcMismatch
    else .ok ()

/-- `Client::get_reply_data` (`src/lib.rs` lines 89-102): require more
than 5 bytes, require the one-byte length field at offset 2 to predict the
total length exactly, return the payload after the 3-byte envelope. -/
def get_reply_data (reply : List Nat) : Except ModbusError (List Nat) :=
  if reply.length ≤ 5 then .error .badReplyData
  else
    let len := reply.getD 2 0
    if 5 + len ≠ reply.length then .error .badReplyData
    else .ok ((reply.drop 3).take len)

/-- `pack_bytes` (`src/lib.rs` lines 257-268): group an even-length byte
sequence pairwise into big-endian words. -/
def pack_bytes (bytes : List Nat) : Except ModbusError (List Nat) :=
  if bytes.length % 2 ≠ 0 then .error .oddByteCount
  else .ok (packWords bytes)
where
  /-- The `get_u16` loop: consume two bytes per word, big-endian. -/
  packWords : List Nat → List Nat
    | a :: b :: rest => (a * 256 + b) :: packWords rest
    | _ => []

/-- The transport interactions of one exchange: whether `write_all` and
`flush` succeed, and what a `read` call returns — an I/O error, or the
bytes it writes into the front of the buffer it is handed (`Read::read`
may deliver fewer bytes than the buffer holds). -/
structure TransportOutcome where
  writeOk : Bool
  flushOk : Bool
  readResult : Except Unit (List Nat)
  deriving Repr

/-- The reply buffer after `Read::read` delivered `delivered` into its
front: the delivered bytes, then the untouched tail of the template. -/
def fillPrefix (template delivered : List Nat) : List Nat :=
  delivered.take template.length ++ template.drop delivered.length

/-- `Client::transfer` (`src/lib.rs` lines 132-154): write the request,
flush, return immediately for a write with `need_reply` off, otherwise
perform one read into the reply buffer and validate it.  Returns the
final reply buffer on success. -/
def transfer (t : TransportOutcome) (need_reply : Bool) (req reply : List Nat)
    (write : Bool) : Except ModbusError (List Nat) :=
  if t.writeOk then
    if t.flushOk then
      if write && !need_reply then .ok reply
      else
        match t.readResult with
        | .ok delivered =>
            let reply := fillPrefix reply delivered
            match validate_reply req reply with
            | .ok _ => .ok reply
            | .error e => .error e
        | .error _ => .error .readFailed
    else .error .flushFailed
  else .error .writeFailed

/-- `Client::read` (`src/lib.rs` lines 156-160): build, transfer with
`write = false`, extract the payload. -/
def clientRead (t : TransportOutcome) (need_reply : Bool) (f : Function) :
    Except ModbusError (List Nat) := do
  let (req, reply) ← build_buffer f
  let reply ← transfer t need_reply req reply false
  get_reply_data reply

/-- `Client::write` (`src/lib.rs` lines 162-165): build, transfer with
`write = true`, discard the reply buffer. -/
def clientWrite (t : TransportOutcome) (need_reply : Bool) (f : Function) :
    Except ModbusError Unit := do
  let (req, reply) ← build_buffer f
  let _ ← transfer t need_reply req reply true
  pure ()

/-- `Client::read_holding_registers` (`src/lib.rs` lines 58-66). -/
def read_holding_registers (t : TransportOutcome) (need_reply : Bool)
    (id addr quantity : Nat) : Except ModbusError (List Nat) := do
  let bytes ← clientRead t need_reply (.readHoldingRegisters id addr quantity)
  pack_bytes bytes

/-- `Client::write_single_register` (`src/lib.rs` lines 68-70). -/
def write_single_register (t : TransportOutcome) (need_reply : Bool)
    (id addr value : Nat) : Except ModbusError Unit :=
  clientWrite t need_reply (.writeSingleRegister id addr value)

/-- `Client::write_multiple_registers` (`src/lib.rs` lines 72-79). -/
def write_multiple_registers (t : TransportOutcome) (need_reply : Bool)
    (id addr : Nat) (values : List Nat) : Except ModbusError Unit :=
  clientWrite t need_reply (.writeMultipleRegisters id addr values)

/-- The `Coil` enum (`src/lib.rs` lines 306-311). -/
inductive Coil
  | On
  | Off
  deriving DecidableEq, Repr

/-- The bit contributed by one coil in `pack_bits`. -/
def Coil.val : Coil → Nat
  | .On => 1
  | .Off => 0

/-- One iteration of the `pack_bits` loop:
`res[i / 8] |= v << (i % 8)`. -/
def packStep (res : List Nat) (i : Nat) (b : Coil) : List Nat :=
  res.set (i / 8) (res.getD (i / 8) 0 ||| (b.val <<< (i % 8)))

/-- The `pack_bits` loop over the remaining coils, carrying the running
index. -/
def packAux : List Coil → Nat → List Nat → List Nat
  | [], _, res => res
  | b :: rest, i, res => packAux rest (i + 1) (packStep res i b)

/-- `pack_bits` (`src/lib.rs` lines 280-292): pack coils 8 per byte,
least-significant bit first, into `⌈count/8⌉` bytes initialised to 0. -/
def pack_bits (bits : List Coil) : List Nat :=
  let bitcount := bits.length
  let packed_size := bitcount / 8 + if bitcount % 8 > 0 then 1 else 0
  packAux bits 0 (List.replicate packed_size 0)

/-- `unpack_bits` (`src/lib.rs` lines 294-304): read `count` bits back,
byte `i / 8`, bit `i % 8`. -/
def unpack_bits (bytes : List Nat) (count : Nat) : List Coil :=
  (List.range count).map fun i =>
    if (bytes.getD (i / 8) 0 >>> (i % 8)) &&& 1 > 0 then Coil.On else Coil.Off

/-!
### The CRC algorithm as the specification words it

A second CRC definition, following the wording of spec §4.2 — XOR the
byte into the register, then eight right shifts, XORing with the
polynomial 0xA001 whenever the shifted-out bit was 1 — written with
`% 2` / `/ 2` arithmetic and `Function.iterate`, to be compared with the
source-derived `calc_crc` above.
-/

/-- Modelled from the spec (§4.2): one right shift of the CRC register,
XORing with 0xA001 when the shifted-out bit is 1. -/
def crcRoundSpec (crc : Nat) : Nat :=
  if crc % 2 = 1 then crc / 2 ^^^ 0xA001 else crc / 2

/-- Modelled from the spec (§4.2): per byte, XOR the byte into the
register, then do eight shift rounds. -/
def crcByteSpec (crc x : Nat) : Nat :=
  crcRoundSpec^[8] (crc ^^^ x)

/-- Modelled from the spec (§4.2): the pre-swap Modbus CRC-16, initial
register 0xFFFF, processed byte by byte. -/
def modbusCrc16Spec (data : List Nat) : Nat :=
  data.foldl crcByteSpec 0xFFFF

/-- Modelled from the spec (§4.2): the CRC as returned, byte-swapped via
`(crc << 8) | (crc >> 8)` in 16-bit arithmetic. -/
def modbusCrc16SwappedSpec (data : List Nat) : Nat :=
  ((modbusCrc16Spec data <<< 8) % 65536) ||| (modbusCrc16Spec data >>> 8)

lemma crcRound_def (c : Nat) :
    crcRound c = if c &&& 1 ≠ 0 then (c >>> 1) ^^^ 0xA001 else c >>> 1 := rfl

lemma crcRound_eq_spec (c : Nat) : crcRound c = crcRoundSpec c := by
  unfold crcRoundSpec
  rw [crcRound_def, Nat.and_one_is_mod, Nat.shiftRight_one]
  rcases Nat.mod_two_eq_zero_or_one c with h | h <;> simp [h]

lemma crcByte_eq_spec (c x : Nat) : crcByte c x = crcByteSpec c x := by
  unfold crcByte crcByteSpec
  rw [show (8 : Nat) = 7 + 1 from rfl, Function.iterate_succ_apply]
  rw [show (7 : Nat) = 6 + 1 from rfl, Function.iterate_succ_apply]
  rw [show (6 : Nat) = 5 + 1 from rfl, Function.iterate_succ_apply]
  rw [show (5 : Nat) = 4 + 1 from rfl, Function.iterate_succ_apply]
  rw [show (4 : Nat) = 3 + 1 from rfl, Function.iterate_succ_apply]
  rw [show (3 : Nat) = 2 + 1 from rfl, Function.iterate_succ_apply]
  rw [show (2 : Nat) = 1 + 1 from rfl, Function.iterate_succ_apply]
  rw [Function.iterate_one]
  simp only [Function.comp_apply, crcRound_eq_spec]

lemma crcRaw_eq_spec (data : List Nat) : crcRaw data = modbusCrc16Spec data := by
  have general : ∀ (l : List Nat) (init : Nat),
      l.foldl crcByte init = l.foldl crcByteSpec init := by
    intro l
    induction l with
    | nil => intro _; rfl
    | cons b rest ih =>
        intro init
        simp only [List.foldl_cons, crcByte_eq_spec, ih]
  exact general data 0xFFFF

/-!
### Range of the CRC register
-/

lemma crcRound_lt {c : Nat} (h : c < 65536) : crcRound c < 65536 := by
  rw [crcRound_def]
  have hs : c >>> 1 < 65536 := by
    rw [Nat.shiftRight_one]
    omega
  split
  · exact Nat.xor_lt_two_pow (n := 16) hs (by norm_num)
  · exact hs

lemma crcByte_lt {c x : Nat} (hc : c < 65536) (hx : x < 65536) :
    crcByte c x < 65536 := by
  unfold crcByte
  have h0 : c ^^^ x < 65536 := Nat.xor_lt_two_pow (n := 16) hc hx
  simp only [Function.comp_apply]
  exact crcRound_lt (crcRound_lt (crcRound_lt (crcRound_lt (crcRound_lt
    (crcRound_lt (crcRound_lt (crcRound_lt h0)))))))

lemma crcRaw_lt {data : List Nat} (h : ∀ b ∈ data, b < 65536) :
    crcRaw data < 65536 := by
  unfold crcRaw
  have general : ∀ (l : List Nat), (∀ b ∈ l, b < 65536) → ∀ init < 65536,
      l.foldl crcByte init < 65536 := by
    intro l
    induction l with
    | nil => intro _ init hi; exact hi
    | cons b rest ih =>
        intro hl init hi
        simp only [List.foldl_cons]
        exact ih (fun x hx => hl x (List.mem_cons_of_mem _ hx))
          _ (crcByte_lt hi (hl b (List.mem_cons_self _ _)))
  exact general data h 0xFFFF (by norm_num)

lemma calc_crc_lt {data : List Nat} (h : ∀ b ∈ data, b < 65536) :
    calc_crc data < 65536 := by
  unfold calc_crc
  have h1 : (crcRaw data <<< 8) % 65536 < 65536 := Nat.mod_lt _ (by norm_num)
  have h2 : crcRaw data >>> 8 < 65536 := by
    have := crcRaw_lt h
    rw [Nat.shiftRight_eq_div_pow]
    omega
  exact Nat.or_lt_two_pow (n := 16) h1 h2

/-!
### Frame builder lemmas
-/

lemma u16be_mem_lt (x : Nat) : ∀ y ∈ u16be x, y < 256 := by
  simp only [u16be, List.mem_cons, List.mem_singleton, List.not_mem_nil]
  intro y hy
  rcases hy with h | h | h
  · omega
  · omega
  · exact absurd h (by simp)

lemma u16be_decode {x : Nat} (h : x < 65536) :
    (u16be x).getD 0 0 * 256 + (u16be x).getD 1 0 = x := by
  simp only [u16be, List.getD_cons_zero, List.getD_cons_succ]
  omega

lemma u16be_length (x : Nat) : (u16be x).length = 2 := rfl

lemma flatten_u16be_length (data : List Nat) :
    ((data.map u16be).flatten).length = 2 * data.length := by
  induction data with
  | nil => rfl
  | cons d rest ih =>
      rw [List.map_cons, List.flatten_cons, List.length_append, u16be_length, ih,
        List.length_cons]
      omega

lemma rhrBody_length (id addr quantity : Nat) :
    (rhrBody id addr quantity).length = 6 := rfl

lemma wsrBody_length (id addr data : Nat) :
    (wsrBody id addr data).length = 6 := rfl

lemma wmrBody_length (id addr : Nat) (data : List Nat) :
    (wmrBody id addr data).length = 7 + 2 * data.length := by
  simp only [wmrBody, List.length_cons, List.length_append, u16be_length,
    flatten_u16be_length]
  omega

lemma build_buffer_rhr (id addr quantity : Nat) :
    build_buffer (.readHoldingRegisters id addr quantity) =
      .ok (rhrBody id addr quantity ++ u16be (calc_crc (rhrBody id addr quantity)),
        List.replicate (5 + quantity * 2) 0) := by
  simp only [build_buffer, buffer_checks]
  rw [if_neg (by simp [rhrBody]),
    if_neg (by rw [List.length_append, rhrBody_length, u16be_length]; omega)]

lemma build_buffer_wsr (id addr data : Nat) :
    build_buffer (.writeSingleRegister id addr data) =
      .ok (wsrBody id addr data ++ u16be (calc_crc (wsrBody id addr data)),
        List.replicate 8 0) := by
  simp only [build_buffer, buffer_checks]
  rw [if_neg (by simp [wsrBody]),
    if_neg (by rw [List.length_append, wsrBody_length, u16be_length]; omega)]

lemma build_buffer_wmr (id addr : Nat) (data : List Nat) :
    build_buffer (.writeMultipleRegisters id addr data) =
      if 9 + 2 * data.length > 260 then .error .oversizedFrame
      else .ok (wmrBody id addr data ++ u16be (calc_crc (wmrBody id addr data)),
        List.replicate 8 0) := by
  simp only [build_buffer, buffer_checks]
  rw [if_neg (by simp [wmrBody])]
  have hlen : ((wmrBody id addr data) ++ u16be (calc_crc (wmrBody id addr data))).length
      = 9 + 2 * data.length := by
    rw [List.length_append, wmrBody_length, u16be_length]
    omega
  by_cases hbig : 9 + 2 * data.length > 260
  · rw [if_pos (by omega), if_pos hbig]
  · rw [if_neg (by omega), if_neg hbig]

set_option maxRecDepth 40000 in
/-- C2: `build_buffer` on `ReadHoldingRegisters(1, 0x1122, 2)` yields the
8-byte request `[01, 03, 11, 22, 00, 02]` plus two CRC bytes decoding
big-endian to `calc_crc` of the first six bytes, together with a
zero-filled 9-byte reply buffer; and for every id, address and quantity
the reply buffer has length `5 + 2 * quantity`. -/
theorem build_read_holding_registers_frames :
    (∃ c1 c2,
      build_buffer (.readHoldingRegisters 1 0x1122 2) =
        .ok ([1, 3, 0x11, 0x22, 0, 2, c1, c2], List.replicate 9 0) ∧
      c1 * 256 + c2 = calc_crc [1, 3, 0x11, 0x22, 0, 2]) ∧
    ∀ id addr quantity, ∃ req tmpl,
      build_buffer (.readHoldingRegisters id addr quantity) = .ok (req, tmpl) ∧
      tmpl.length = 5 + 2 * quantity := by
  refine ⟨⟨0x61, 0x3D, by decide, by decide⟩, fun id addr quantity => ?_⟩
  refine ⟨_, _, build_buffer_rhr id addr quantity, ?_⟩
  rw [List.length_replicate]
  omega

set_option maxRecDepth 40000 in
/-- C4 counterexample: `build_buffer` on a `WriteMultipleRegisters`
request with an empty values list does not fail — it returns a 9-byte
frame with zero word count and zero byte count. -/
theorem build_write_multiple_empty_succeeds :
    build_buffer (.writeMultipleRegisters 1 0 []) =
      .ok ([1, 0x10, 0, 0, 0, 0, 0, 0x09, 0x50], List.replicate 8 0) := by decide

/-- C4 amended: for every id and address, `build_buffer` on
`WriteMultipleRegisters(id, addr, [])` succeeds, producing a 9-byte
request (word count 0, byte count 0, then the CRC) and the 8-byte reply
buffer — the empty-values case is not rejected as `InvalidFrame`. -/
theorem build_write_multiple_empty_frame :
    ∀ id addr, ∃ req,
      build_buffer (.writeMultipleRegisters id addr []) =
        .ok (req, List.replicate 8 0) ∧ req.length = 9 := by
  intro id addr
  refine ⟨wmrBody id addr [] ++ u16be (calc_crc (wmrBody id addr [])), ?_, ?_⟩
  · rw [build_buffer_wmr, if_neg (by simp)]
  · rw [List.length_append, wmrBody_length, u16be_length]
    simp

/-- C9: whenever `build_buffer` accepts a `WriteMultipleRegisters`
request, the values list holds at most 125 words — the 260-byte packet
cap rejects anything longer — and the byte-count byte at offset 6 of the
request is exactly twice the number of values, with no `u8` wrap. -/
theorem build_write_multiple_byte_count :
    ∀ id addr data req tmpl,
      build_buffer (.writeMultipleRegisters id addr data) = .ok (req, tmpl) →
      data.length ≤ 125 ∧ req.getD 6 0 = 2 * data.length := by
  intro id addr data req tmpl h
  rw [build_buffer_wmr] at h
  by_cases hbig : 9 + 2 * data.length > 260
  · rw [if_pos hbig] at h
    exact absurd h (by simp)
  · rw [if_neg hbig] at h
    have hlen : data.length ≤ 125 := by omega
    refine ⟨hlen, ?_⟩
    have hreq : req = wmrBody id addr data ++ u16be (calc_crc (wmrBody id addr data)) := by
      injection h with h'
      exact (congrArg Prod.fst h').symm
    rw [hreq, List.getD_append _ _ _ _ (by rw [wmrBody_length]; omega)]
    show (wmrBody id addr data).getD 6 0 = 2 * data.length
    simp only [wmrBody, u16be, List.cons_append, List.nil_append,
      List.getD_cons_succ, List.getD_cons_zero]
    omega

/-- C1: `calc_crc` computes the standard Modbus CRC-16 — initial register
0xFFFF, per byte XOR then eight right shifts XORing with 0xA001 when the
shifted-out bit is 1 — returned byte-swapped; the pre-swap value for
`[0x02, 0x07]` is 0x1241 and `calc_crc` returns 0x4112 there. -/
theorem calc_crc_is_modbus_crc16 :
    (∀ data : List Nat, calc_crc data = modbusCrc16SwappedSpec data) ∧
    crcRaw [0x02, 0x07] = 0x1241 ∧ calc_crc [0x02, 0x07] = 0x4112 := by
  refine ⟨fun data => ?_, by decide, by decide⟩
  unfold calc_crc modbusCrc16SwappedSpec
  rw [crcRaw_eq_spec]

/-!
### Reply validator lemmas
-/

lemma validate_reply_def (req reply : List Nat) :
    validate_reply req reply =
      if req.length < 3 ∨ reply.length < 3 then .error .frameTooShort
      else if req.getD 0 0 ≠ reply.getD 0 0 then .error .idMismatch
      else if req.getD 1 0 ≠ reply.getD 1 0 then .error .funMismatch
      else if (reply.getD (reply.length - 2) 0) * 256 + reply.getD (reply.length - 1) 0
          ≠ calc_crc (reply.take (reply.length - 2)) then .error .crcMismatch
      else .ok () := rfl

/-- C6: a reply whose first byte differs from the first byte of the
request is rejected as an id mismatch, whatever the rest of either frame
holds, as long as both frames pass the length guard. -/
theorem validate_rejects_id_mismatch :
    ∀ req reply : List Nat, 3 ≤ req.length → 3 ≤ reply.length →
      req.getD 0 0 ≠ reply.getD 0 0 →
      validate_reply req reply = .error .idMismatch := by
  intro req reply h1 h2 hne
  rw [validate_reply_def, if_neg (by omega), if_pos hne]

/-- Witness for C6: the id-mismatch rejection at a concrete frame pair
whose CRC bytes are even self-consistent. -/
theorem validate_rejects_id_mismatch_witness :
    3 ≤ ([1, 3, 9] : List Nat).length ∧ 3 ≤ ([2, 3, 9] : List Nat).length ∧
    ([1, 3, 9] : List Nat).getD 0 0 ≠ ([2, 3, 9] : List Nat).getD 0 0 ∧
    validate_reply [1, 3, 9] [2, 3, 9] = .error .idMismatch :=
  ⟨by decide, by decide, by decide,
    validate_rejects_id_mismatch [1, 3, 9] [2, 3, 9] (by decide) (by decide) (by decide)⟩

lemma xor_shift_ne (c b : Nat) : c ^^^ (1 <<< b) ≠ c := by
  intro h
  have h1 : c ^^^ (c ^^^ (1 <<< b)) = c ^^^ c := by rw [h]
  rw [← Nat.xor_assoc, Nat.xor_self, Nat.zero_xor] at h1
  rw [Nat.one_shiftLeft] at h1
  exact (Nat.two_pow_pos b).ne' h1

/-- Every frame a non-custom `build_buffer` arm accepts is a body of at
least three in-range bytes followed by the two CRC bytes of that body. -/
lemma build_nonCustom_shape (f : Function) (req tmpl : List Nat)
    (hwf : f.wf) (hnc : f.nonCustom = true)
    (h : build_buffer f = .ok (req, tmpl)) :
    ∃ body, req = body ++ u16be (calc_crc body) ∧ 3 ≤ body.length ∧
      ∀ x ∈ body, x < 65536 := by
  cases f with
  | custom q r => simp [Function.nonCustom] at hnc
  | readHoldingRegisters id addr quantity =>
      rw [build_buffer_rhr] at h
      injection h with h'
      rw [Prod.mk.injEq] at h'
      obtain ⟨hid, haddr, hq⟩ := hwf
      refine ⟨rhrBody id addr quantity, h'.1.symm, by rw [rhrBody_length]; omega, ?_⟩
      intro x hx
      simp only [rhrBody, List.mem_cons, List.mem_append] at hx
      rcases hx with rfl | rfl | hx | hx
      · omega
      · omega
      · exact lt_trans (u16be_mem_lt _ _ hx) (by norm_num)
      · exact lt_trans (u16be_mem_lt _ _ hx) (by norm_num)
  | writeSingleRegister id addr data =>
      rw [build_buffer_wsr] at h
      injection h with h'
      rw [Prod.mk.injEq] at h'
      obtain ⟨hid, haddr, hd⟩ := hwf
      refine ⟨wsrBody id addr data, h'.1.symm, by rw [wsrBody_length]; omega, ?_⟩
      intro x hx
      simp only [wsrBody, List.mem_cons, List.mem_append] at hx
      rcases hx with rfl | rfl | hx | hx
      · omega
      · omega
      · exact lt_trans (u16be_mem_lt _ _ hx) (by norm_num)
      · exact lt_trans (u16be_mem_lt _ _ hx) (by norm_num)
  | writeMultipleRegisters id addr data =>
      rw [build_buffer_wmr] at h
      by_cases hbig : 9 + 2 * data.length > 260
      · rw [if_pos hbig] at h
        exact absurd h (by simp)
      · rw [if_neg hbig] at h
        injection h with h'
        rw [Prod.mk.injEq] at h'
        obtain ⟨hid, haddr, hd⟩ := hwf
        refine ⟨wmrBody id addr data, h'.1.symm,
          by rw [wmrBody_length]; omega, ?_⟩
        intro x hx
        simp only [wmrBody, List.mem_cons, List.mem_append, or_assoc] at hx
        rcases hx with rfl | rfl | hx | hx | rfl | hx
        · omega
        · omega
        · exact lt_trans (u16be_mem_lt _ _ hx) (by norm_num)
        · exact lt_trans (u16be_mem_lt _ _ hx) (by norm_num)
        · omega
        · rw [List.mem_flatten] at hx
          obtain ⟨l, hl, hxl⟩ := hx
          rw [List.mem_map] at hl
          obtain ⟨d, _, rfl⟩ := hl
          exact lt_trans (u16be_mem_lt _ _ hxl) (by norm_num)

lemma validate_reply_echo (body : List Nat) (h3 : 3 ≤ body.length)
    (hb : ∀ x ∈ body, x < 65536) :
    validate_reply (body ++ u16be (calc_crc body)) (body ++ u16be (calc_crc body)) =
      .ok () := by
  have hcrc := calc_crc_lt hb
  have hlen : (body ++ u16be (calc_crc body)).length = body.length + 2 := by
    rw [List.length_append, u16be_length]
  rw [validate_reply_def, if_neg (by omega), if_neg (by simp), if_neg (by simp)]
  have h2 : (body ++ u16be (calc_crc body)).length - 2 = body.length := by omega
  have h1 : (body ++ u16be (calc_crc body)).length - 1 = body.length + 1 := by omega
  rw [h2, h1,
    List.getD_append_right _ _ _ _ (Nat.le_refl _),
    List.getD_append_right _ _ _ _ (by omega),
    Nat.sub_self, show body.length + 1 - body.length = 1 by omega,
    List.take_left]
  rw [if_neg (by rw [u16be_decode hcrc]; simp)]

lemma validate_reply_flip (body : List Nat) (c1' c2' : Nat) (h3 : 3 ≤ body.length)
    (hcrc : c1' * 256 + c2' ≠ calc_crc body) :
    validate_reply (body ++ u16be (calc_crc body)) (body ++ [c1', c2']) =
      .error .crcMismatch := by
  have hlen : (body ++ u16be (calc_crc body)).length = body.length + 2 := by
    rw [List.length_append, u16be_length]
  have hlen' : (body ++ [c1', c2']).length = body.length + 2 := by
    rw [List.length_append]
    rfl
  rw [validate_reply_def, if_neg (by omega),
    if_neg (by
      rw [List.getD_append _ _ _ _ (by omega), List.getD_append _ _ _ _ (by omega)]
      simp),
    if_neg (by
      rw [List.getD_append _ _ _ _ (by omega), List.getD_append _ _ _ _ (by omega)]
      simp)]
  have h2 : (body ++ [c1', c2']).length - 2 = body.length := by omega
  have h1 : (body ++ [c1', c2']).length - 1 = body.length + 1 := by omega
  rw [h2, h1,
    List.getD_append_right _ _ _ _ (Nat.le_refl _),
    List.getD_append_right _ _ _ _ (by omega),
    Nat.sub_self, show body.length + 1 - body.length = 1 by omega,
    List.take_left]
  rw [if_pos (by simpa using hcrc)]

/-- C3: for every frame a non-custom `build_buffer` arm produces, an
unmodified echo passes `validate_reply`, and flipping any single bit in
either of the two trailing CRC bytes makes `validate_reply` fail with the
checksum error. -/
theorem validate_echo_and_crc_flip :
    ∀ f req tmpl, Function.wf f → f.nonCustom = true →
      build_buffer f = .ok (req, tmpl) →
      validate_reply req req = .ok () ∧
      ∀ p b, b < 8 → (p = req.length - 2 ∨ p = req.length - 1) →
        validate_reply req (req.set p (req.getD p 0 ^^^ (1 <<< b))) =
          .error .crcMismatch := by
  intro f req tmpl hwf hnc h
  obtain ⟨body, hreq, h3, hb⟩ := build_nonCustom_shape f req tmpl hwf hnc h
  subst hreq
  have hcrc := calc_crc_lt hb
  have hdec := u16be_decode hcrc
  have hu : u16be (calc_crc body) =
      [calc_crc body / 256 % 256, calc_crc body % 256] := rfl
  have hlen : (body ++ u16be (calc_crc body)).length = body.length + 2 := by
    rw [List.length_append, u16be_length]
  refine ⟨validate_reply_echo body h3 hb, ?_⟩
  intro p b hb8 hp
  have hc1 : (u16be (calc_crc body)).getD 0 0 = calc_crc body / 256 % 256 := rfl
  have hc2 : (u16be (calc_crc body)).getD 1 0 = calc_crc body % 256 := rfl
  rcases hp with rfl | rfl
  · have h2 : (body ++ u16be (calc_crc body)).length - 2 = body.length := by omega
    rw [h2,
      List.getD_append_right _ _ _ _ (Nat.le_refl _), Nat.sub_self, hc1,
      List.set_append_right _ _ (Nat.le_refl _), Nat.sub_self, hu]
    show validate_reply _ (body ++ [_, _]) = _
    exact validate_reply_flip body _ _ h3 (by
      rw [hc1, hc2] at hdec
      have hne := xor_shift_ne (calc_crc body / 256 % 256) b
      omega)
  · have h1 : (body ++ u16be (calc_crc body)).length - 1 = body.length + 1 := by omega
    rw [h1,
      List.getD_append_right _ _ _ _ (by omega),
      show body.length + 1 - body.length = 1 by omega, hc2,
      List.set_append_right _ _ (by omega),
      show body.length + 1 - body.length = 1 by omega, hu]
    show validate_reply _ (body ++ [_, _]) = _
    exact validate_reply_flip body _ _ h3 (by
      rw [hc1, hc2] at hdec
      have hne := xor_shift_ne (calc_crc body % 256) b
      omega)

set_option maxRecDepth 40000 in
/-- Witness for C9: the byte-count invariant applied to a one-word
write. -/
theorem build_write_multiple_byte_count_witness :
    ([7] : List Nat).length ≤ 125 ∧
    ([1, 16, 0, 0, 0, 1, 2, 0, 7, 231, 146] : List Nat).getD 6 0 = 2 * ([7] : List Nat).length :=
  build_write_multiple_byte_count 1 0 [7] [1, 16, 0, 0, 0, 1, 2, 0, 7, 231, 146]
    (List.replicate 8 0) (by decide)

set_option maxRecDepth 40000 in
/-- Witness for C3: echo acceptance and one-bit CRC corruption rejection
on the concrete ReadHoldingRegisters(1, 0, 1) request frame. -/
theorem validate_echo_and_crc_flip_witness :
    validate_reply [1, 3, 0, 0, 0, 1, 132, 10] [1, 3, 0, 0, 0, 1, 132, 10] = .ok () ∧
    validate_reply [1, 3, 0, 0, 0, 1, 132, 10]
      (([1, 3, 0, 0, 0, 1, 132, 10] : List Nat).set 6
        (([1, 3, 0, 0, 0, 1, 132, 10] : List Nat).getD 6 0 ^^^ (1 <<< 0))) =
      .error .crcMismatch := by
  have h := validate_echo_and_crc_flip (.readHoldingRegisters 1 0 1)
    [1, 3, 0, 0, 0, 1, 132, 10] (List.replicate 7 0)
    (by decide) (by decide) (by decide)
  exact ⟨h.1, h.2 6 0 (by decide) (by decide)⟩

/-!
### Transfer engine
-/

lemma transfer_write_no_reply (r : Except Unit (List Nat)) (req reply : List Nat) :
    transfer ⟨true, true, r⟩ false req reply true = .ok reply := by
  simp [transfer]

/-- C7: with no-reply mode on (`need_reply = false`), a write-class
exchange whose request is written and flushed successfully returns
success whatever the transport read would have produced — the read never
influences (and is never needed for) the outcome. -/
theorem write_no_reply_skips_read :
    (∀ (r r' : Except Unit (List Nat)) (req reply : List Nat),
      transfer ⟨true, true, r⟩ false req reply true =
        transfer ⟨true, true, r'⟩ false req reply true) ∧
    (∀ (r : Except Unit (List Nat)) id addr value,
      write_single_register ⟨true, true, r⟩ false id addr value = .ok ()) ∧
    (∀ (r : Except Unit (List Nat)) id addr values, values.length ≤ 125 →
      write_multiple_registers ⟨true, true, r⟩ false id addr values = .ok ()) := by
  refine ⟨fun r r' req reply => ?_, fun r id addr value => ?_, fun r id addr values hlen => ?_⟩
  · rw [transfer_write_no_reply, transfer_write_no_reply]
  · rw [write_single_register, clientWrite, build_buffer_wsr]
    show Except.ok () = Except.ok ()
    rfl
  · rw [write_multiple_registers, clientWrite, build_buffer_wmr, if_neg (by omega)]
    show Except.ok () = Except.ok ()
    rfl

/-- Witness for C7: concrete no-reply writes succeed even when the
transport read would have failed outright. -/
theorem write_no_reply_skips_read_witness :
    write_single_register ⟨true, true, .error ()⟩ false 1 0 1 = .ok () ∧
    ([7] : List Nat).length ≤ 125 ∧
    write_multiple_registers ⟨true, true, .error ()⟩ false 1 0 [7] = .ok () :=
  ⟨write_no_reply_skips_read.2.1 (.error ()) 1 0 1, by decide,
    write_no_reply_skips_read.2.2 (.error ()) 1 0 [7] (by decide)⟩

set_option maxRecDepth 40000 in
/-- C5 evidence: `transfer` performs a single read and ignores how many
bytes it delivered.  With the valid custom frame
`[01, 06, 03, 00, 00, 00, 89, 8E]` as both request and caller-supplied
reply template, a read that delivers zero bytes — fewer than the 8-byte
reply buffer — still proceeds to validation, which passes on the
untouched template, and the whole read exchange succeeds with a payload;
with a zero-filled template and a 5-byte short read of a 9-byte buffer,
the exchange proceeds to validation and fails there with the checksum
error, not with a read error. -/
theorem transfer_accepts_short_read :
    transfer ⟨true, true, .ok []⟩ true
        [1, 6, 3, 0, 0, 0, 137, 142] [1, 6, 3, 0, 0, 0, 137, 142] false =
      .ok [1, 6, 3, 0, 0, 0, 137, 142] ∧
    clientRead ⟨true, true, .ok []⟩ true
        (.custom [1, 6, 3, 0, 0, 0, 137, 142] [1, 6, 3, 0, 0, 0, 137, 142]) =
      .ok [0, 0, 0] ∧
    transfer ⟨true, true, .ok [1, 3, 2, 0, 5]⟩ true
        [1, 3, 0, 0, 0, 2, 196, 11] (List.replicate 9 0) false =
      .error .crcMismatch := by
  refine ⟨by decide, ?_, by decide⟩
  rw [clientRead]
  show (buffer_checks _ _ >>= _) = _
  rw [show buffer_checks [1, 6, 3, 0, 0, 0, 137, 142] [1, 6, 3, 0, 0, 0, 137, 142] =
    .ok ([1, 6, 3, 0, 0, 0, 137, 142], [1, 6, 3, 0, 0, 0, 137, 142]) from by decide]
  decide

/-!
### Reply extraction and word decoding
-/

lemma except_ok_bind {α β : Type} {a : α} {f : α → Except ModbusError β} :
    ((Except.ok a : Except ModbusError α) >>= f) = f a := rfl

lemma except_bind_ok {α β : Type} {x : Except ModbusError α}
    {f : α → Except ModbusError β} {b : β}
    (h : (x >>= f) = .ok b) : ∃ a, x = .ok a ∧ f a = .ok b := by
  cases x with
  | ok a => exact ⟨a, rfl, h⟩
  | error e => exact Except.noConfusion h

lemma get_reply_data_def (reply : List Nat) :
    get_reply_data reply =
      if reply.length ≤ 5 then .error .badReplyData
      else if 5 + reply.getD 2 0 ≠ reply.length then .error .badReplyData
      else .ok ((reply.drop 3).take (reply.getD 2 0)) := rfl

lemma get_reply_data_ok {reply payload : List Nat}
    (h : get_reply_data reply = .ok payload) :
    5 < reply.length ∧ reply.getD 2 0 + 5 = reply.length ∧
      payload = (reply.drop 3).take (reply.getD 2 0) := by
  rw [get_reply_data_def] at h
  by_cases h5 : reply.length ≤ 5
  · rw [if_pos h5] at h
    exact Except.noConfusion h
  · rw [if_neg h5] at h
    by_cases hl : 5 + reply.getD 2 0 ≠ reply.length
    · rw [if_pos hl] at h
      exact Except.noConfusion h
    · rw [if_neg hl] at h
      injection h with h2
      exact ⟨by omega, by omega, h2.symm⟩

lemma pack_bytes_ok {bytes words : List Nat} (h : pack_bytes bytes = .ok words) :
    bytes.length % 2 = 0 ∧ words = pack_bytes.packWords bytes := by
  unfold pack_bytes at h
  by_cases he : bytes.length % 2 ≠ 0
  · rw [if_pos he] at h
    exact Except.noConfusion h
  · rw [if_neg he] at h
    injection h with h2
    exact ⟨by omega, h2.symm⟩

theorem packWords_length : ∀ l : List Nat,
    (pack_bytes.packWords l).length = l.length / 2
  | [] => by simp [pack_bytes.packWords]
  | [_] => by simp [pack_bytes.packWords]
  | _ :: _ :: rest => by
      simp only [pack_bytes.packWords, List.length_cons, packWords_length rest]
      omega

theorem packWords_getD : ∀ (l : List Nat) (k : Nat), 2 * k + 1 < l.length →
    (pack_bytes.packWords l).getD k 0 = l.getD (2 * k) 0 * 256 + l.getD (2 * k + 1) 0
  | [], _, h => by simp at h
  | [_], _, h => by
      simp only [List.length_cons, List.length_nil] at h
      omega
  | a :: b :: rest, 0, _ => by simp [pack_bytes.packWords]
  | a :: b :: rest, (k+1), h => by
      have hh : 2 * k + 1 < rest.length := by
        simp only [List.length_cons] at h
        omega
      simp only [pack_bytes.packWords, List.getD_cons_succ]
      rw [packWords_getD rest k hh,
        show 2 * (k + 1) = 2 * k + 1 + 1 from by omega]
      simp only [List.getD_cons_succ]

lemma fillPrefix_length (template d : List Nat) :
    (fillPrefix template d).length = template.length := by
  unfold fillPrefix
  rw [List.length_append, List.length_take, List.length_drop]
  omega

lemma fillPrefix_replicate_getD_lt (d : List Nat) (L i : Nat)
    (hd : ∀ b ∈ d, b < 256) :
    (fillPrefix (List.replicate L 0) d).getD i 0 < 256 := by
  by_cases hi : i < (fillPrefix (List.replicate L 0) d).length
  · rw [List.getD_eq_getElem _ _ hi]
    have hm := List.getElem_mem hi
    set x := (fillPrefix (List.replicate L 0) d)[i] with hx
    unfold fillPrefix at hm
    rcases List.mem_append.mp hm with hm | hm
    · exact hd _ (List.mem_of_mem_take hm)
    · rw [List.eq_of_mem_replicate (List.mem_of_mem_drop hm)]
      norm_num
  · rw [List.getD_eq_default _ _ (by omega)]
    norm_num

lemma transfer_read_ok {nr : Bool} {t : TransportOutcome} {req tmpl out : List Nat}
    (h : transfer t nr req tmpl false = .ok out) :
    ∃ d, t.readResult = .ok d ∧ out = fillPrefix tmpl d ∧
      validate_reply req out = .ok () := by
  obtain ⟨w, fl, r⟩ := t
  cases w
  · simp [transfer] at h
  · cases fl
    · simp [transfer] at h
    · cases r with
      | error e => simp [transfer] at h
      | ok d =>
          have h2 : (match validate_reply req (fillPrefix tmpl d) with
              | .ok _ => (.ok (fillPrefix tmpl d) : Except ModbusError (List Nat))
              | .error e => .error e) = .ok out := h
          cases hv : validate_reply req (fillPrefix tmpl d) with
          | ok u =>
              rw [hv] at h2
              injection h2 with h3
              cases u
              exact ⟨d, rfl, h3.symm, h3 ▸ hv⟩
          | error e =>
              rw [hv] at h2
              exact Except.noConfusion h2

/-- C10: whenever `read_holding_registers` succeeds, the returned word
list holds exactly `quantity` words, which forces `quantity ≤ 127`
(2 × quantity must fit the one-byte length field of the reply), and each
word is decoded big-endian from the corresponding consecutive byte pair
of the extracted reply payload. -/
theorem read_holding_registers_ok :
    ∀ (t : TransportOutcome) (nr : Bool) (id addr quantity : Nat) (words : List Nat),
      (∀ d, t.readResult = .ok d → ∀ b ∈ d, b < 256) →
      read_holding_registers t nr id addr quantity = .ok words →
      words.length = quantity ∧ quantity ≤ 127 ∧
      ∃ reply payload,
        transfer t nr
          (rhrBody id addr quantity ++ u16be (calc_crc (rhrBody id addr quantity)))
          (List.replicate (5 + quantity * 2) 0) false = .ok reply ∧
        get_reply_data reply = .ok payload ∧
        payload.length = 2 * quantity ∧
        pack_bytes payload = .ok words ∧
        ∀ k, k < quantity →
          words.getD k 0 = payload.getD (2 * k) 0 * 256 + payload.getD (2 * k + 1) 0 := by
  intro t nr id addr q words hbytes h
  rw [read_holding_registers, clientRead, build_buffer_rhr, except_ok_bind] at h
  obtain ⟨bytes, hcr, hpb⟩ := except_bind_ok h
  obtain ⟨rep, htr, hgr⟩ := except_bind_ok hcr
  obtain ⟨d, hrd, hout, _⟩ := transfer_read_ok htr
  have hreplen : rep.length = 5 + q * 2 := by
    rw [hout, fillPrefix_length, List.length_replicate]
  obtain ⟨h5, hlenfield, hpay⟩ := get_reply_data_ok hgr
  have hlt : rep.getD 2 0 < 256 := by
    rw [hout]
    exact fillPrefix_replicate_getD_lt d _ _ (hbytes d hrd)
  have hq2 : rep.getD 2 0 = 2 * q := by omega
  have hq127 : q ≤ 127 := by omega
  have hplen : bytes.length = 2 * q := by
    rw [hpay, List.length_take, List.length_drop, hq2, hreplen]
    omega
  obtain ⟨heven, hwords⟩ := pack_bytes_ok hpb
  have hwlen : words.length = q := by
    rw [hwords, packWords_length, hplen]
    omega
  refine ⟨hwlen, hq127, rep, bytes, htr, hgr, hplen, hpb, ?_⟩
  intro k hk
  rw [hwords, packWords_getD bytes k (by omega)]

set_option maxRecDepth 200000 in
/-- Witness for C10: a full successful exchange — unit 1, address 0,
quantity 1, with the transport returning the valid reply
`[01, 03, 02, 00, 05, 78, 47]` — yields the single word 5. -/
theorem read_holding_registers_ok_witness :
    ([5] : List Nat).length = 1 ∧ (1 : Nat) ≤ 127 ∧
    ∃ reply payload,
      transfer ⟨true, true, .ok [1, 3, 2, 0, 5, 120, 71]⟩ true
        (rhrBody 1 0 1 ++ u16be (calc_crc (rhrBody 1 0 1)))
        (List.replicate (5 + 1 * 2) 0) false = .ok reply ∧
      get_reply_data reply = .ok payload ∧
      payload.length = 2 * 1 ∧
      pack_bytes payload = .ok [5] ∧
      ∀ k, k < 1 →
        ([5] : List Nat).getD k 0 = payload.getD (2 * k) 0 * 256 + payload.getD (2 * k + 1) 0 :=
  read_holding_registers_ok ⟨true, true, .ok [1, 3, 2, 0, 5, 120, 71]⟩ true 1 0 1 [5]
    (by intro d hd; injection hd with hd2; subst hd2; decide)
    (by decide)

/-!
### Coil packing
-/

lemma getD_set_ne {l : List Nat} {i j : Nat} (h : i ≠ j) (a : Nat) :
    (l.set i a).getD j 0 = l.getD j 0 := by
  by_cases hj : j < l.length
  · rw [List.getD_eq_getElem _ _ (by rw [List.length_set]; omega),
      List.getD_eq_getElem _ _ hj]
    simp [h]
  · rw [List.getD_eq_default _ _ (by rw [List.length_set]; omega),
      List.getD_eq_default _ _ (by omega)]

lemma getD_set_self {l : List Nat} {i : Nat} (h : i < l.length) (a : Nat) :
    (l.set i a).getD i 0 = a := by
  rw [List.getD_eq_getElem _ _ (by rw [List.length_set]; omega)]
  simp

lemma packStep_length (res : List Nat) (i : Nat) (b : Coil) :
    (packStep res i b).length = res.length := by
  unfold packStep
  rw [List.length_set]

lemma packStep_getD_testBit_self (res : List Nat) (i : Nat) (b : Coil)
    (hlen : i / 8 < res.length)
    (h0 : (res.getD (i / 8) 0).testBit (i % 8) = false) :
    ((packStep res i b).getD (i / 8) 0).testBit (i % 8) = (b == Coil.On) := by
  unfold packStep
  rw [getD_set_self hlen]
  cases b
  · rw [show Coil.val .On = 1 from rfl, Nat.one_shiftLeft, Nat.testBit_or, h0,
      Nat.testBit_two_pow_self]
    rfl
  · rw [show Coil.val .Off = 0 from rfl, Nat.zero_shiftLeft, Nat.or_zero, h0]
    rfl

lemma packStep_getD_testBit_other (res : List Nat) (i : Nat) (b : Coil) (j k : Nat)
    (hk : k < 8) (hne : 8 * j + k ≠ i) :
    ((packStep res i b).getD j 0).testBit k = (res.getD j 0).testBit k := by
  unfold packStep
  by_cases hj : j = i / 8
  · subst hj
    by_cases hlen : i / 8 < res.length
    · rw [getD_set_self hlen, Nat.testBit_or]
      have hz : (Coil.val b <<< (i % 8)).testBit k = false := by
        cases b
        · rw [show Coil.val .On = 1 from rfl, Nat.one_shiftLeft]
          exact Nat.testBit_two_pow_of_ne (by omega)
        · rw [show Coil.val .Off = 0 from rfl, Nat.zero_shiftLeft]
          exact Nat.zero_testBit k
      rw [hz, Bool.or_false]
    · rw [List.set_eq_of_length_le (by omega)]
  · rw [getD_set_ne (Ne.symm hj) _]

lemma packAux_length : ∀ (bits : List Coil) (i : Nat) (res : List Nat),
    (packAux bits i res).length = res.length
  | [], _, _ => rfl
  | b :: rest, i, res => by
      simp only [packAux]
      rw [packAux_length rest (i + 1) (packStep res i b), packStep_length]

lemma packAux_testBit_preserve : ∀ (bits : List Coil) (i0 : Nat) (res : List Nat)
    (j k : Nat), k < 8 → (∀ m, m < bits.length → i0 + m ≠ 8 * j + k) →
    ((packAux bits i0 res).getD j 0).testBit k = ((res.getD j 0).testBit k)
  | [], _, _, _, _, _, _ => rfl
  | b :: rest, i0, res, j, k, hk, hno => by
      simp only [packAux]
      rw [packAux_testBit_preserve rest (i0 + 1) (packStep res i0 b) j k hk
        (fun m hm => by
          have := hno (m + 1) (by simp only [List.length_cons]; omega)
          omega)]
      exact packStep_getD_testBit_other res i0 b j k hk
        (by have := hno 0 (by simp); omega)

lemma packAux_testBit : ∀ (bits : List Coil) (i0 : Nat) (res : List Nat) (m : Nat),
    m < bits.length → (i0 + m) / 8 < res.length →
    ((res.getD ((i0 + m) / 8) 0).testBit ((i0 + m) % 8)) = false →
    ((packAux bits i0 res).getD ((i0 + m) / 8) 0).testBit ((i0 + m) % 8) =
      (bits.getD m Coil.Off == Coil.On)
  | [], _, _, m, hm, _, _ => by simp at hm
  | b :: rest, i0, res, 0, _, hlen, h0 => by
      simp only [Nat.add_zero] at hlen h0 ⊢
      simp only [packAux]
      rw [packAux_testBit_preserve rest (i0 + 1) (packStep res i0 b) (i0 / 8) (i0 % 8)
        (by omega) (fun m hm => by omega)]
      rw [packStep_getD_testBit_self res i0 b hlen h0]
      rfl
  | b :: rest, i0, res, (m + 1), hm, hlen, h0 => by
      simp only [packAux]
      have heq : i0 + (m + 1) = (i0 + 1) + m := by omega
      rw [heq] at hlen h0 ⊢
      rw [packAux_testBit rest (i0 + 1) (packStep res i0 b) m
        (by simp only [List.length_cons] at hm; omega)
        (by rw [packStep_length]; exact hlen)
        (by
          rw [packStep_getD_testBit_other res i0 b _ _ (by omega) (by omega)]
          exact h0)]
      rfl

lemma pack_bits_def (c : List Coil) :
    pack_bits c =
      packAux c 0
        (List.replicate (c.length / 8 + if c.length % 8 > 0 then 1 else 0) 0) := rfl

lemma replicate_getD (n j : Nat) : (List.replicate n (0 : Nat)).getD j 0 = 0 := by
  by_cases hj : j < n
  · rw [List.getD_eq_getElem _ _ (by rw [List.length_replicate]; omega)]
    exact List.getElem_replicate _ _
  · rw [List.getD_eq_default _ _ (by rw [List.length_replicate]; omega)]

lemma pack_bits_testBit (c : List Coil) (i : Nat) (hi : i < c.length) :
    ((pack_bits c).getD (i / 8) 0).testBit (i % 8) = (c.getD i Coil.Off == Coil.On) := by
  rw [pack_bits_def]
  have hsz : i / 8 < c.length / 8 + if c.length % 8 > 0 then 1 else 0 := by
    by_cases h8 : c.length % 8 > 0
    · rw [if_pos h8]; omega
    · rw [if_neg h8]; omega
  have h := packAux_testBit c 0
    (List.replicate (c.length / 8 + if c.length % 8 > 0 then 1 else 0) 0) i hi
    (by rw [List.length_replicate]; simpa using hsz)
    (by rw [replicate_getD]; exact Nat.zero_testBit _)
  simpa using h

lemma and_one_pos_iff_testBit (x k : Nat) :
    ((x >>> k) &&& 1 > 0) ↔ x.testBit k = true := by
  rw [Nat.and_one_is_mod, Nat.testBit_to_div_mod, Nat.shiftRight_eq_div_pow,
    decide_eq_true_iff]
  omega

/-- C8: packing any coil sequence and unpacking the same number of bits
returns the original sequence; the packed form holds `⌈count / 8⌉` bytes
with the coil at position `i` stored in byte `i / 8` at bit `i % 8`,
least-significant bit first. -/
theorem pack_unpack_coils_roundtrip :
    ∀ c : List Coil,
      unpack_bits (pack_bits c) c.length = c ∧
      (pack_bits c).length = (c.length + 7) / 8 ∧
      ∀ i, i < c.length →
        ((pack_bits c).getD (i / 8) 0).testBit (i % 8) = (c.getD i Coil.Off == Coil.On) := by
  intro c
  refine ⟨?_, ?_, fun i hi => pack_bits_testBit c i hi⟩
  · apply List.ext_getElem (by simp [unpack_bits])
    intro n h1 h2
    unfold unpack_bits
    simp only [List.getElem_map, List.getElem_range]
    have hb := pack_bits_testBit c n h2
    rw [← List.getD_eq_getElem c Coil.Off h2]
    cases hc : c.getD n Coil.Off
    · rw [hc] at hb
      rw [if_pos (by rw [and_one_pos_iff_testBit, hb]; rfl)]
    · rw [hc] at hb
      rw [if_neg (by rw [and_one_pos_iff_testBit, hb]; simp)]
  · rw [pack_bits_def, packAux_length, List.length_replicate]
    by_cases h8 : c.length % 8 > 0
    · rw [if_pos h8]; omega
    · rw [if_neg h8]; omega

/-- Witness for C8: the round trip, byte count and bit placement on the
concrete coil sequence `[On, Off, On]` of length 3. -/
theorem pack_unpack_coils_roundtrip_witness :
    unpack_bits (pack_bits [Coil.On, Coil.Off, Coil.On]) 3 = [Coil.On, Coil.Off, Coil.On] ∧
    (pack_bits [Coil.On, Coil.Off, Coil.On]).length = (3 + 7) / 8 ∧
    (0 : Nat) < 3 ∧
    ((pack_bits [Coil.On, Coil.Off, Coil.On]).getD (0 / 8) 0).testBit (0 % 8) =
      (([Coil.On, Coil.Off, Coil.On] : List Coil).getD 0 Coil.Off == Coil.On) := by
  have h := pack_unpack_coils_roundtrip [Coil.On, Coil.Off, Coil.On]
  exact ⟨h.1, h.2.1, by decide, h.2.2 0 (by decide)⟩

end SimpleModbus
